import Mathlib

/-!
Shallow embedding of the DexOwl watchlist price-alert engine.

Sources embedded here:
- `src/priceMonitor.js` — the polling scheduler (`startMonitor` / `stopMonitor`)
  and the alert evaluator (`checkPrices`, `sendPriceAlert`);
- `telegram-memecoin-bot/src/watchlist.js` — the file-backed watchlist store
  (`addToWatchlist`, `removeFromWatchlist`, `updateLastAlertPrice`,
  `updateThreshold`);
- the DexScreener client — `getTokenData`, `getMultipleTokensData`,
  `formatPrice`, `formatMarketCap`;
- `src/bot/processors.js` — `processAdd`.

JavaScript numbers are modelled as exact rationals (`ℚ`); the properties
settled here concern sign, ordering and threshold comparisons that are
independent of binary rounding.  JavaScript `String.prototype.toLowerCase` is
modelled by `lowerStr` (character-wise `Char.toLower`, which lower-cases the
ASCII range — token addresses, chain ids and chat ids in this repository are
ASCII).  Effects are made explicit: wall-clock timestamps, HTTP responses and
the notifier outcome are parameters, and `setTimeout` / `setInterval` are a
timer-table state machine.
-/

namespace DexOwl

/-- Model of JavaScript `toLowerCase` (character-wise ASCII lower-casing). -/
def lowerStr (s : String) : String := String.mk (s.data.map Char.toLower)

/-- Watchlist entry, after the JSDoc typedef in
`telegram-memecoin-bot/src/watchlist.js` (`lastAlertPrice` is the spec's
`referencePrice`, `chatId` the spec's `subscriberId`). -/
structure WatchlistEntry where
  tokenAddress : String
  chainId : String
  name : String
  symbol : String
  dropThreshold : ℚ
  lastAlertPrice : ℚ
  initialPrice : ℚ
  addedAt : String
  chatId : String
deriving DecidableEq

/-- The (address, chain, chat) match predicate used by every keyed store
operation in `watchlist.js`: address and chain compared after `toLowerCase()`,
chat id compared exactly. -/
def entryMatches (e : WatchlistEntry) (tokenAddress chainId chatId : String) : Bool :=
  lowerStr e.tokenAddress == lowerStr tokenAddress &&
  lowerStr e.chainId == lowerStr chainId &&
  e.chatId == chatId

/-- Parameters of `addToWatchlist` (`watchlist.js` lines 64-95). -/
structure AddParams where
  tokenAddress : String
  chainId : String
  name : String
  symbol : String
  currentPrice : ℚ
  dropThreshold : ℚ
  chatId : String

/-- `addToWatchlist` (`watchlist.js` lines 64-95): reject when an entry with
the same case-insensitive (address, chain) and the same chat already exists,
otherwise append a new entry whose reference and initial price are both the
fetched current price.  `now` stands for `new Date().toISOString()`. -/
def addToWatchlist (watchlist : List WatchlistEntry) (p : AddParams) (now : String) :
    Option WatchlistEntry × List WatchlistEntry :=
  let normalizedAddress := lowerStr p.tokenAddress
  let alreadyExists := watchlist.any fun e =>
    lowerStr e.tokenAddress == normalizedAddress &&
    lowerStr e.chainId == lowerStr p.chainId &&
    e.chatId == p.chatId
  if alreadyExists then (none, watchlist)
  else
    let entry : WatchlistEntry :=
      { tokenAddress := normalizedAddress
        chainId := lowerStr p.chainId
        name := p.name
        symbol := p.symbol
        dropThreshold := p.dropThreshold
        lastAlertPrice := p.currentPrice
        initialPrice := p.currentPrice
        addedAt := now
        chatId := p.chatId }
    (some entry, watchlist ++ [entry])

/-- `removeFromWatchlist` (`watchlist.js` lines 104-121). -/
def removeFromWatchlist (watchlist : List WatchlistEntry)
    (tokenAddress chainId chatId : String) : Bool × List WatchlistEntry :=
  let filtered := watchlist.filter fun e => !(entryMatches e tokenAddress chainId chatId)
  if filtered.length < watchlist.length then (true, filtered) else (false, watchlist)

/-- `updateLastAlertPrice` (`watchlist.js` lines 148-162): `Array.prototype.find`
returns the first matching entry, which is mutated in place; when nothing
matches, the list is saved unchanged. -/
def updateLastAlertPrice (watchlist : List WatchlistEntry)
    (tokenAddress chainId chatId : String) (newPrice : ℚ) : List WatchlistEntry :=
  match watchlist with
  | [] => []
  | e :: rest =>
    if entryMatches e tokenAddress chainId chatId then
      { e with lastAlertPrice := newPrice } :: rest
    else
      e :: updateLastAlertPrice rest tokenAddress chainId chatId newPrice

/-- `updateThreshold` (`watchlist.js` lines 172-189). -/
def updateThreshold (watchlist : List WatchlistEntry)
    (tokenAddress chainId chatId : String) (newThreshold : ℚ) :
    Bool × List WatchlistEntry :=
  match watchlist with
  | [] => (false, [])
  | e :: rest =>
    if entryMatches e tokenAddress chainId chatId then
      (true, { e with dropThreshold := newThreshold } :: rest)
    else
      let r := updateThreshold rest tokenAddress chainId chatId newThreshold
      (r.1, e :: r.2)

/-- Outcome of evaluating one entry against one fetched price
(`priceMonitor.js` lines 76-85). -/
inductive EvalResult where
  | skip
  | noFire (percentChange : ℚ)
  | fire (percentChange : ℚ)
deriving DecidableEq

/-- The per-entry alert decision of `checkPrices` (`priceMonitor.js` lines
73-85): skip when either price is non-positive, otherwise compute the signed
percent change from the reference price and fire exactly when its absolute
value reaches the threshold. -/
def checkEntry (lastAlertPrice currentPrice dropThreshold : ℚ) : EvalResult :=
  if lastAlertPrice ≤ 0 ∨ currentPrice ≤ 0 then .skip
  else
    let percentChange := (currentPrice - lastAlertPrice) / lastAlertPrice * 100
    let absChange := |percentChange|
    if absChange ≥ dropThreshold then .fire percentChange else .noFire percentChange

/-- `sendPriceAlert` (`priceMonitor.js` lines 150-157): the `bot.sendMessage`
call — whose outcome is the `sendOutcome` parameter — is wrapped in try/catch,
so a dispatch failure becomes a log line instead of a propagated exception. -/
def sendPriceAlert (sendOutcome : Except String Unit) : Except String (List String) :=
  match sendOutcome with
  | .ok _ => .ok []
  | .error msg => .ok ["Error sending alert: " ++ msg]

/-- One entry's pass through the body of `checkPrices` (`priceMonitor.js`
lines 73-100): decide; on fire, dispatch the alert (line 91) and then persist
the new reference price (lines 94-99).  Returns the updated store, whether the
entry fired, and the log lines produced. -/
def checkPricesEntryStep (watchlist : List WatchlistEntry) (e : WatchlistEntry)
    (currentPrice : ℚ) (sendOutcome : Except String Unit) :
    Except String (List WatchlistEntry × Bool × List String) :=
  match checkEntry e.lastAlertPrice currentPrice e.dropThreshold with
  | .skip => .ok (watchlist, false, [])
  | .noFire _ => .ok (watchlist, false, [])
  | .fire _ => do
    let logs ← sendPriceAlert sendOutcome
    .ok (updateLastAlertPrice watchlist e.tokenAddress e.chainId e.chatId currentPrice,
         true, logs)

/-- Chain ids in order of first appearance — the iteration order of the
insertion-ordered `entriesByChain` map in `checkPrices` (lines 52-58). -/
def chainOrder (entries : List WatchlistEntry) : List String :=
  entries.foldl (fun acc e => if acc.contains e.chainId then acc else acc ++ [e.chainId]) []

/-- Sequential evaluation of one chain group (`checkPrices` lines 65-101):
`entries` is the snapshot read at the start of the sweep, `watchlist` the
store being updated, and `fetch` the batch result keyed by chain and
lower-cased address.  Returns the updated store and the number of alerts
fired. -/
def processEntries (watchlist : List WatchlistEntry) (entries : List WatchlistEntry)
    (fetch : String → String → Option ℚ) : List WatchlistEntry × Nat :=
  match entries with
  | [] => (watchlist, 0)
  | e :: rest =>
    let step : List WatchlistEntry × Nat :=
      match fetch e.chainId (lowerStr e.tokenAddress) with
      | none => (watchlist, 0)
      | some currentPrice =>
        match checkEntry e.lastAlertPrice currentPrice e.dropThreshold with
        | .fire _ =>
          (updateLastAlertPrice watchlist e.tokenAddress e.chainId e.chatId currentPrice, 1)
        | _ => (watchlist, 0)
    let r := processEntries step.1 rest fetch
    (r.1, step.2 + r.2)

/-- One sweep of `checkPrices` (lines 42-103): group the snapshot by chain,
then evaluate each group sequentially against the fetched prices. -/
def checkPricesSweep (watchlist : List WatchlistEntry)
    (fetch : String → String → Option ℚ) : List WatchlistEntry × Nat :=
  (chainOrder watchlist).foldl
    (fun acc c =>
      let group := watchlist.filter fun e => e.chainId == c
      let r := processEntries acc.1 group fetch
      (r.1, acc.2 + r.2))
    (watchlist, 0)

/-- Iterated sweeps, one fetched price per sweep for a single tracked token:
the setting of the spec's recursive-alert example. -/
def runPriceSequence (watchlist : List WatchlistEntry) (chainId addrLower : String)
    (prices : List ℚ) : List WatchlistEntry × Nat :=
  match prices with
  | [] => (watchlist, 0)
  | p :: rest =>
    let r := checkPricesSweep watchlist
      (fun c a => if c == chainId && a == addrLower then some p else none)
    let r2 := runPriceSequence r.1 chainId addrLower rest
    (r2.1, r.2 + r2.2)

/-- Concrete fetch oracle: a single token with one quoted price. -/
def constFetch (chainId addrLower : String) (p : ℚ) : String → String → Option ℚ :=
  fun c a => if c == chainId && a == addrLower then some p else none

/-- Concrete entry used by the spec's worked examples: threshold 5%,
reference and initial price 1.00. -/
def exEntry : WatchlistEntry :=
  { tokenAddress := "0xabc", chainId := "solana", name := "Example", symbol := "EXM"
    dropThreshold := 5, lastAlertPrice := 1, initialPrice := 1
    addedAt := "2024-01-01T00:00:00.000Z", chatId := "chat1" }

/-- Case-insensitive identity key of an entry. -/
def keysOf (e : WatchlistEntry) : String × String × String :=
  (lowerStr e.tokenAddress, lowerStr e.chainId, e.chatId)

/-- At most one entry per (address, chain, subscriber) tuple. -/
def UniqueKeys (wl : List WatchlistEntry) : Prop := (wl.map keysOf).Nodup

/-- One trading pair as the DexScreener API returns it, restricted to the
fields the client reads; `Option` models absent or unparsable JSON fields
(`parseFloat` of a missing or garbage `priceUsd` is modelled as `none`). -/
structure RawPair where
  baseTokenAddress : Option String
  baseTokenName : Option String
  baseTokenSymbol : Option String
  priceUsd : Option ℚ
  marketCap : Option ℚ
  fdv : Option ℚ
  liquidityUsd : Option ℚ
  priceChange24h : Option ℚ
  dexId : Option String
  pairAddress : Option String
  url : Option String
deriving DecidableEq

/-- JavaScript `x || fallback` on a number: absent and 0 are falsy. -/
def jsOrQ (a : Option ℚ) (b : ℚ) : ℚ :=
  match a with
  | some x => if x = 0 then b else x
  | none => b

/-- JavaScript `x || fallback` on a string: absent and the empty string are falsy. -/
def jsOrS (a : Option String) (b : String) : String :=
  match a with
  | some s => if s = "" then b else s
  | none => b

/-- Canonical token-data shape produced by the client. -/
structure TokenData where
  name : String
  symbol : String
  priceUsd : ℚ
  marketCap : ℚ
  liquidity : ℚ
  priceChange24h : ℚ
  dexId : String
  pairAddress : String
  url : String
deriving DecidableEq

/-- The `reduce` step selecting the pair with the greater `liquidity.usd`
(missing liquidity coerced to 0); ties keep the earlier pair. -/
def pickMoreLiquid (best current : RawPair) : RawPair :=
  if jsOrQ current.liquidityUsd 0 > jsOrQ best.liquidityUsd 0 then current else best

/-- `pairs.reduce(pick, pairs[0])` — the fold starts from the first pair. -/
def bestPairOf (pairs : List RawPair) : Option RawPair :=
  match pairs with
  | [] => none
  | p0 :: _ => some (pairs.foldl pickMoreLiquid p0)

/-- Field normalization shared by `getTokenData` and `getMultipleTokensData`. -/
def normalizePair (chainId tokenAddress : String) (p : RawPair) : TokenData :=
  { name := jsOrS p.baseTokenName "Unknown"
    symbol := jsOrS p.baseTokenSymbol "UNKNOWN"
    priceUsd := jsOrQ p.priceUsd 0
    marketCap := jsOrQ p.marketCap (jsOrQ p.fdv 0)
    liquidity := jsOrQ p.liquidityUsd 0
    priceChange24h := jsOrQ p.priceChange24h 0
    dexId := jsOrS p.dexId "unknown"
    pairAddress := jsOrS p.pairAddress ""
    url := jsOrS p.url ("https://dexscreener.com/" ++ chainId ++ "/" ++ tokenAddress) }

/-- `getTokenData`: `response` is the HTTP outcome (`none` for a transport
error or an empty body, both of which the catch and the length guard turn
into `null`). -/
def getTokenData (chainId tokenAddress : String) (response : Option (List RawPair)) :
    Option TokenData :=
  match response with
  | none => none
  | some pairs =>
    match bestPairOf pairs with
    | none => none
    | some best => some (normalizePair chainId tokenAddress best)

/-- `processAdd` (`src/bot/processors.js` lines 23-45): the fetch has already
been performed by the caller (`tokenData`); on success hand the fetched
`priceUsd` straight to `addToWatchlist` as the current price.  Returns the new
store and the created entry (`none` when the token was not found or the add
was a duplicate). -/
def processAdd (wl : List WatchlistEntry) (chatId chainId tokenAddress : String)
    (threshold : ℚ) (tokenData : Option TokenData) (now : String) :
    List WatchlistEntry × Option WatchlistEntry :=
  match tokenData with
  | none => (wl, none)
  | some td =>
    let r := addToWatchlist wl
      { tokenAddress := tokenAddress, chainId := chainId, name := td.name
        symbol := td.symbol, currentPrice := td.priceUsd
        dropThreshold := threshold, chatId := chatId } now
    (r.2, r.1)

/-- A pair whose `priceUsd` field did not parse: `parseFloat(...) || 0`
normalizes it to price 0. -/
def badPair : RawPair :=
  { baseTokenAddress := some "0xdef", baseTokenName := some "Bad"
    baseTokenSymbol := some "BAD", priceUsd := none, marketCap := none, fdv := none
    liquidityUsd := some 10, priceChange24h := none, dexId := some "dex"
    pairAddress := some "0xpr", url := some "u" }

/-- Lower-cased base-token address of a pair; `none` also when the address is
the (falsy) empty string, mirroring `if (addr)`. -/
def lowerAddrOf (p : RawPair) : Option String :=
  match p.baseTokenAddress with
  | none => none
  | some a => if lowerStr a = "" then none else some (lowerStr a)

/-- Insertion into the insertion-ordered `pairsByToken` map. -/
def insertPair (groups : List (String × List RawPair)) (addr : String) (p : RawPair) :
    List (String × List RawPair) :=
  match groups with
  | [] => [(addr, [p])]
  | (a, ps) :: rest =>
    if a = addr then (a, ps ++ [p]) :: rest
    else (a, ps) :: insertPair rest addr p

/-- Group the response pairs by lower-cased base-token address
(`getMultipleTokensData` lines 280-290). -/
def groupPairsByToken (pairs : List RawPair) : List (String × List RawPair) :=
  pairs.foldl
    (fun groups p =>
      match lowerAddrOf p with
      | none => groups
      | some addr => insertPair groups addr p)
    []

/-- `results.set(addr, data)` on the insertion-ordered results map. -/
def setKey (results : List (String × TokenData)) (k : String) (v : TokenData) :
    List (String × TokenData) :=
  match results with
  | [] => [(k, v)]
  | (a, x) :: rest => if a = k then (k, v) :: rest else (a, x) :: setKey rest k v

/-- Fold one batch response into the results map (`getMultipleTokensData`
lines 278-312); a failed call (`none`) leaves the results untouched. -/
def processBatchResponse (chainId : String) (results : List (String × TokenData))
    (response : Option (List RawPair)) : List (String × TokenData) :=
  match response with
  | none => results
  | some pairs =>
    (groupPairsByToken pairs).foldl
      (fun res g =>
        match bestPairOf g.2 with
        | none => res
        | some best => setKey res g.1 (normalizePair chainId g.1 best))
      results

/-- The batch loop of `getMultipleTokensData` (lines 265-321): slice off up to
30 addresses, issue one call, and count one pacing delay whenever further
addresses remain (`i + batchSize < tokenAddresses.length`).  Returns the
results map, the list of issued calls, and the number of delays. -/
def multiFetchLoop (chainId : String) (api : List String → Option (List RawPair))
    (remaining : List String) (results : List (String × TokenData)) :
    List (String × TokenData) × List (List String) × Nat :=
  match remaining with
  | [] => (results, [], 0)
  | a :: tl =>
    let batch := (a :: tl).take 30
    let results2 := processBatchResponse chainId results (api batch)
    let rest := (a :: tl).drop 30
    let r := multiFetchLoop chainId api rest results2
    (r.1, batch :: r.2.1, (if rest.isEmpty then 0 else 1) + r.2.2)
termination_by remaining.length
decreasing_by simp [List.length_drop]; omega

/-- `getMultipleTokensData(chainId, tokenAddresses)` with the HTTP layer as an
oracle from a batch of addresses to a response. -/
def getMultipleTokensData (chainId : String) (tokenAddresses : List String)
    (api : List String → Option (List RawPair)) :
    List (String × TokenData) × List (List String) × Nat :=
  multiFetchLoop chainId api tokenAddresses []

/-- 31 distinct addresses, one more than the upstream ceiling. -/
def addrs31 : List String := (List.range 31).map fun i => "a" ++ toString i

/-- Concrete response pair for the batch-fetch witness. -/
def exPair : RawPair :=
  { baseTokenAddress := some "A1", baseTokenName := some "Tok"
    baseTokenSymbol := some "TOK", priceUsd := some 2, marketCap := some 5
    fdv := none, liquidityUsd := some 7, priceChange24h := some 1
    dexId := some "dex", pairAddress := some "0xpr", url := some "u" }

/-- Concrete API oracle for the batch-fetch witness: answers only the one
batch actually issued for `["A1", "B2"]`. -/
def exApi : List String → Option (List RawPair) :=
  fun b => if b = ["A1", "B2"] then some [exPair] else none

/-- Pool of live JavaScript timers: `nextId` is the next fresh handle,
`timeouts` the pending `setTimeout` handles, `intervals` the live
`setInterval` handles. -/
structure TimerState where
  nextId : Nat
  timeouts : List Nat
  intervals : List Nat
deriving DecidableEq

def setTimeoutTimer (t : TimerState) : Nat × TimerState :=
  (t.nextId, { t with nextId := t.nextId + 1, timeouts := t.timeouts ++ [t.nextId] })

def setIntervalTimer (t : TimerState) : Nat × TimerState :=
  (t.nextId, { t with nextId := t.nextId + 1, intervals := t.intervals ++ [t.nextId] })

/-- `clearInterval(h)`: the timer with handle `h` never fires again. -/
def clearIntervalTimer (t : TimerState) (h : Nat) : TimerState :=
  { t with timeouts := t.timeouts.filter (· != h), intervals := t.intervals.filter (· != h) }

/-- The module-level state of `priceMonitor.js`: the stored interval handle
(`monitorInterval`) and the runtime timer pool. -/
structure MonitorState where
  monitorInterval : Option Nat
  timers : TimerState
deriving DecidableEq

/-- `startMonitor` (lines 12-26): clear a previous interval if any, schedule
the warm-up sweep with `setTimeout` (line 22) whose handle is discarded, then
store the handle of the steady `setInterval` (line 25). -/
def startMonitor (s : MonitorState) : MonitorState :=
  let t0 := match s.monitorInterval with
    | some h => clearIntervalTimer s.timers h
    | none => s.timers
  let t1 := (setTimeoutTimer t0).2
  let r := setIntervalTimer t1
  { monitorInterval := some r.1, timers := r.2 }

/-- `stopMonitor` (lines 31-37): clear the stored interval handle, if any. -/
def stopMonitor (s : MonitorState) : MonitorState :=
  match s.monitorInterval with
  | some h => { monitorInterval := none, timers := clearIntervalTimer s.timers h }
  | none => s

/-- Fresh process state: no stored handle, no live timers. -/
def initMonitor : MonitorState :=
  { monitorInterval := none, timers := { nextId := 0, timeouts := [], intervals := [] } }

/-- Left-pad a digit string with zeros to width `d`. -/
def padZeros (s : String) (d : Nat) : String :=
  String.mk (List.replicate (d - s.length) '0') ++ s

/-- JavaScript `Number.prototype.toFixed(d)` on an exact rational: the
closest `n / 10^d`, ties toward positive infinity.  A negative zero is
rendered without sign (irrelevant to the values exercised here). -/
def qToFixed (q : ℚ) (d : Nat) : String :=
  let n : ℤ := ⌊q * (10:ℚ)^d + 1/2⌋
  let sign := if n < 0 then "-" else ""
  let m := n.natAbs
  if d = 0 then sign ++ toString m
  else sign ++ toString (m / 10^d) ++ "." ++ padZeros (toString (m % 10^d)) d

/-- The `replace` of trailing zeros (and a then-dangling dot) applied by
`formatPrice` to its sub-cent tiers. -/
def stripTrailingZeros (s : String) : String :=
  let l := s.data.reverse.dropWhile (· == '0')
  let l2 := match l with
    | '.' :: rest => rest
    | _ => l
  String.mk l2.reverse

def groupThousandsRev : List Char → List Char
  | a :: b :: c :: d :: rest => a :: b :: c :: ',' :: groupThousandsRev (d :: rest)
  | l => l

/-- Thousands grouping of a digit string, as `toLocaleString('en-US')`. -/
def groupThousands (s : String) : String :=
  String.mk (groupThousandsRev s.data.reverse).reverse

/-- `toLocaleString('en-US', 2 fraction digits)` on an exact rational. -/
def qToLocaleFixed2 (q : ℚ) : String :=
  let n : ℤ := ⌊q * 100 + 1/2⌋
  let sign := if n < 0 then "-" else ""
  let m := n.natAbs
  sign ++ groupThousands (toString (m / 100)) ++ "." ++ padZeros (toString (m % 100)) 2

/-- Number of decimal digits of a natural number (1 for 0). -/
def digitCount (n : Nat) : Nat := (toString n).length

/-- Largest integer e with 10^e ≤ q, for positive rational q. -/
def qLog10Floor (q : ℚ) : ℤ :=
  let g : ℤ := (digitCount q.num.natAbs : ℤ) - (digitCount q.den : ℤ)
  if (10:ℚ)^(g+1) ≤ q then g + 1 else if (10:ℚ)^g ≤ q then g else g - 1

/-- JavaScript `Number.prototype.toExponential(d)` on an exact rational. -/
def qToExponential (q : ℚ) (d : Nat) : String :=
  if q = 0 then "0." ++ String.mk (List.replicate d '0') ++ "e+0"
  else
    let sign := if q < 0 then "-" else ""
    let a := |q|
    let e := qLog10Floor a
    let scaled : ℤ := ⌊a / (10:ℚ)^e * (10:ℚ)^(d:ℤ) + 1/2⌋
    let r : ℤ × ℤ := if scaled = 10^(d+1) then ((10:ℤ)^d, e+1) else (scaled, e)
    let ds := toString r.1.natAbs
    sign ++ ds.take 1 ++ "." ++ ds.drop 1 ++ "e" ++
      (if r.2 < 0 then "-" else "+") ++ toString r.2.natAbs

/-- `formatPrice` (DexScreener client, lines 365-372). -/
def formatPrice (price : ℚ) : String :=
  if price = 0 then "$0.00"
  else if price < 1/100000000 then "$" ++ qToExponential price 4
  else if price < 1/10000 then "$" ++ stripTrailingZeros (qToFixed price 10)
  else if price < 1 then "$" ++ stripTrailingZeros (qToFixed price 6)
  else if price < 1000 then "$" ++ qToFixed price 4
  else "$" ++ qToLocaleFixed2 price

/-- `formatMarketCap` (DexScreener client, lines 379-386); `!marketCap` is
true exactly for the (falsy) zero value in this rational model. -/
def formatMarketCap (marketCap : ℚ) : String :=
  if marketCap = 0 then "N/A"
  else if marketCap ≥ 1000000000000 then "$" ++ qToFixed (marketCap / 1000000000000) 2 ++ "T"
  else if marketCap ≥ 1000000000 then "$" ++ qToFixed (marketCap / 1000000000) 2 ++ "B"
  else if marketCap ≥ 1000000 then "$" ++ qToFixed (marketCap / 1000000) 2 ++ "M"
  else if marketCap ≥ 1000 then "$" ++ qToFixed (marketCap / 1000) 2 ++ "K"
  else "$" ++ qToFixed marketCap 2

/-! Helper lemmas. -/

theorem char_toLower_toNat (c : Char) (hc : c.toNat ≤ 90) :
    (Char.ofNat (c.toNat + 32)).toNat = c.toNat + 32 := by
  have hv : (c.toNat + 32).isValidChar := Or.inl (by omega)
  rw [Char.ofNat, dif_pos hv]
  simp [Char.ofNatAux, Char.toNat, UInt32.toNat]

theorem char_toLower_idem (c : Char) : c.toLower.toLower = c.toLower := by
  unfold Char.toLower
  by_cases h : c.toNat ≥ 65 ∧ c.toNat ≤ 90
  · simp only [h, and_self, if_true, ge_iff_le]
    rw [char_toLower_toNat c h.2]
    rw [if_neg (by omega)]
  · simp [h]

/-- Lower-casing is idempotent, so keys stored already-normalized by
`addToWatchlist` compare equal to themselves under the store's
`toLowerCase()` matching. -/
theorem lowerStr_idem (s : String) : lowerStr (lowerStr s) = lowerStr s := by
  have h : Char.toLower ∘ Char.toLower = Char.toLower := funext char_toLower_idem
  simp [lowerStr, List.map_map, h]

theorem updateLastAlertPrice_keys (wl : List WatchlistEntry)
    (addr chain chat : String) (p : ℚ) :
    (updateLastAlertPrice wl addr chain chat p).map keysOf = wl.map keysOf := by
  induction wl with
  | nil => simp [updateLastAlertPrice]
  | cons e rest ih =>
    by_cases h : entryMatches e addr chain chat
    · simp [updateLastAlertPrice, h, keysOf]
    · simp [updateLastAlertPrice, h, ih]

theorem updateThreshold_keys (wl : List WatchlistEntry)
    (addr chain chat : String) (t : ℚ) :
    ((updateThreshold wl addr chain chat t).2).map keysOf = wl.map keysOf := by
  induction wl with
  | nil => simp [updateThreshold]
  | cons e rest ih =>
    by_cases h : entryMatches e addr chain chat
    · simp [updateThreshold, h, keysOf]
    · simp [updateThreshold, h, ih]

theorem entryMatches_false_keys_ne (e : WatchlistEntry) (p : AddParams)
    (h : (lowerStr e.tokenAddress == lowerStr p.tokenAddress &&
          (lowerStr e.chainId == lowerStr p.chainId && e.chatId == p.chatId)) = false)
    (hk : keysOf e =
      (lowerStr (lowerStr p.tokenAddress), lowerStr (lowerStr p.chainId), p.chatId)) :
    False := by
  rw [keysOf, lowerStr_idem, lowerStr_idem] at hk
  simp only [Prod.mk.injEq] at hk
  simp [hk.1, hk.2.1, hk.2.2] at h

theorem setKey_keys (res : List (String × TokenData)) (k : String) (v : TokenData) :
    ∀ x ∈ (setKey res k v).map Prod.fst, x ∈ res.map Prod.fst ∨ x = k := by
  induction res with
  | nil => intro x hx; simp [setKey] at hx; simp [hx]
  | cons h2 t ih =>
    intro x hx
    obtain ⟨a, y⟩ := h2
    by_cases hak : a = k
    · simp [setKey, hak] at hx
      rcases hx with hx | hx
      · right; exact hx
      · left; simp [hx]
    · simp [setKey, hak] at hx
      rcases hx with hx | hx
      · left; simp [hx]
      · rcases ih x (by simpa using hx) with h3 | h3
        · left; simp at h3 ⊢; right; exact h3
        · right; exact h3

theorem insertPair_keys (groups : List (String × List RawPair)) (addr : String) (p : RawPair) :
    ∀ x ∈ (insertPair groups addr p).map Prod.fst, x ∈ groups.map Prod.fst ∨ x = addr := by
  induction groups with
  | nil => intro x hx; simp [insertPair] at hx; simp [hx]
  | cons h2 t ih =>
    intro x hx
    obtain ⟨a, ps⟩ := h2
    by_cases hak : a = addr
    · simp [insertPair, hak] at hx
      rcases hx with hx | hx
      · left; simp [hx, hak]
      · left; simp [hx]
    · simp [insertPair, hak] at hx
      rcases hx with hx | hx
      · left; simp [hx]
      · rcases ih x (by simpa using hx) with h3 | h3
        · left; simp at h3 ⊢; right; exact h3
        · right; exact h3

theorem groupPairs_fold_keys (pairs : List RawPair) :
    ∀ (init : List (String × List RawPair)),
      ∀ x ∈ (pairs.foldl
          (fun groups p =>
            match lowerAddrOf p with
            | none => groups
            | some addr => insertPair groups addr p) init).map Prod.fst,
        x ∈ init.map Prod.fst ∨ ∃ pr ∈ pairs, lowerAddrOf pr = some x := by
  induction pairs with
  | nil => intro init x hx; simp only [List.foldl_nil] at hx; exact Or.inl hx
  | cons p t ih =>
    intro init x hx
    simp only [List.foldl_cons] at hx
    cases hp : lowerAddrOf p with
    | none =>
      rw [hp] at hx
      rcases ih init x hx with h3 | ⟨pr, hpr, hpr2⟩
      · exact Or.inl h3
      · exact Or.inr ⟨pr, List.mem_cons_of_mem p hpr, hpr2⟩
    | some addr =>
      rw [hp] at hx
      rcases ih (insertPair init addr p) x hx with h3 | ⟨pr, hpr, hpr2⟩
      · rcases insertPair_keys init addr p x h3 with h4 | h4
        · exact Or.inl h4
        · exact Or.inr ⟨p, List.mem_cons_self p t, by rw [hp, h4]⟩
      · exact Or.inr ⟨pr, List.mem_cons_of_mem p hpr, hpr2⟩

theorem groupPairsByToken_keys (pairs : List RawPair) :
    ∀ x ∈ (groupPairsByToken pairs).map Prod.fst,
      ∃ pr ∈ pairs, lowerAddrOf pr = some x := by
  intro x hx
  rcases groupPairs_fold_keys pairs [] x hx with h | h
  · simp at h
  · exact h

theorem batch_fold_keys (chainId : String) (groups : List (String × List RawPair)) :
    ∀ (res : List (String × TokenData)),
      ∀ x ∈ (groups.foldl
          (fun res g =>
            match bestPairOf g.2 with
            | none => res
            | some best => setKey res g.1 (normalizePair chainId g.1 best)) res).map Prod.fst,
        x ∈ res.map Prod.fst ∨ x ∈ groups.map Prod.fst := by
  induction groups with
  | nil => intro res x hx; simp only [List.foldl_nil] at hx; exact Or.inl hx
  | cons g t ih =>
    intro res x hx
    simp only [List.foldl_cons] at hx
    cases hb : bestPairOf g.2 with
    | none =>
      rw [hb] at hx
      rcases ih res x hx with h3 | h3
      · exact Or.inl h3
      · right; simp at h3 ⊢; right; exact h3
    | some best =>
      rw [hb] at hx
      rcases ih (setKey res g.1 (normalizePair chainId g.1 best)) x hx with h3 | h3
      · rcases setKey_keys res g.1 _ x h3 with h4 | h4
        · exact Or.inl h4
        · right; simp [h4]
      · right; simp at h3 ⊢; right; exact h3

theorem processBatchResponse_keys (chainId : String) (res : List (String × TokenData))
    (response : Option (List RawPair)) :
    ∀ x ∈ (processBatchResponse chainId res response).map Prod.fst,
      x ∈ res.map Prod.fst ∨ ∃ pr ∈ response.getD [], lowerAddrOf pr = some x := by
  intro x hx
  cases response with
  | none => simp only [processBatchResponse] at hx; exact Or.inl hx
  | some pairs =>
    simp only [processBatchResponse] at hx
    rcases batch_fold_keys chainId (groupPairsByToken pairs) res x hx with h | h
    · exact Or.inl h
    · exact Or.inr (by simpa using groupPairsByToken_keys pairs x h)

theorem multiFetchLoop_spec (chainId : String) (api : List String → Option (List RawPair)) :
    ∀ (n : Nat) (remaining : List String) (results : List (String × TokenData)),
      remaining.length ≤ n →
      ((multiFetchLoop chainId api remaining results).2.1.flatten = remaining) ∧
      (∀ b ∈ (multiFetchLoop chainId api remaining results).2.1, b.length ≤ 30 ∧ b ≠ []) ∧
      ((multiFetchLoop chainId api remaining results).2.2 =
        (multiFetchLoop chainId api remaining results).2.1.length - 1) ∧
      (∀ x ∈ (multiFetchLoop chainId api remaining results).1.map Prod.fst,
        x ∈ results.map Prod.fst ∨
        ∃ b ∈ (multiFetchLoop chainId api remaining results).2.1,
          ∃ pr ∈ (api b).getD [], lowerAddrOf pr = some x) := by
  intro n
  induction n with
  | zero =>
    intro remaining results hlen
    have h0 : remaining = [] := List.length_eq_zero.mp (Nat.le_zero.mp hlen)
    subst h0
    simp [multiFetchLoop]
  | succ n ih =>
    intro remaining results hlen
    cases remaining with
    | nil => simp [multiFetchLoop]
    | cons a tl =>
      have hunfold : multiFetchLoop chainId api (a :: tl) results =
          ((multiFetchLoop chainId api ((a :: tl).drop 30)
              (processBatchResponse chainId results (api ((a :: tl).take 30)))).1,
           (a :: tl).take 30 ::
             (multiFetchLoop chainId api ((a :: tl).drop 30)
               (processBatchResponse chainId results (api ((a :: tl).take 30)))).2.1,
           (if ((a :: tl).drop 30).isEmpty then 0 else 1) +
             (multiFetchLoop chainId api ((a :: tl).drop 30)
               (processBatchResponse chainId results (api ((a :: tl).take 30)))).2.2) := by
        rw [multiFetchLoop]
      have hrest : ((a :: tl).drop 30).length ≤ n := by
        simp only [List.length_drop, List.length_cons]
        simp only [List.length_cons] at hlen
        omega
      obtain ⟨ihflat, ihlen, ihdelay, ihkeys⟩ :=
        ih ((a :: tl).drop 30)
          (processBatchResponse chainId results (api ((a :: tl).take 30))) hrest
      rw [hunfold]
      refine ⟨?_, ?_, ?_, ?_⟩
      · rw [List.flatten_cons, ihflat]
        exact List.take_append_drop 30 (a :: tl)
      · intro b hb
        rcases List.mem_cons.mp hb with rfl | hb2
        · refine ⟨List.length_take_le 30 (a :: tl), ?_⟩
          simp
        · exact ihlen b hb2
      · by_cases hre : (a :: tl).drop 30 = []
        · have hinner : multiFetchLoop chainId api ((a :: tl).drop 30)
              (processBatchResponse chainId results (api ((a :: tl).take 30))) =
              (processBatchResponse chainId results (api ((a :: tl).take 30)), [], 0) := by
            rw [hre, multiFetchLoop]
          rw [hinner]
          simp [hre]
        · have hcalls_ne : (multiFetchLoop chainId api ((a :: tl).drop 30)
              (processBatchResponse chainId results (api ((a :: tl).take 30)))).2.1 ≠ [] := by
            intro h2
            rw [h2] at ihflat
            rw [List.flatten_nil] at ihflat
            exact hre ihflat.symm
          have hL : 1 ≤ (multiFetchLoop chainId api ((a :: tl).drop 30)
              (processBatchResponse chainId results (api ((a :: tl).take 30)))).2.1.length :=
            List.length_pos.mpr hcalls_ne
          have hreb : ((a :: tl).drop 30).isEmpty = false := by
            rw [Bool.eq_false_iff]
            intro h2
            exact hre (List.isEmpty_iff.mp h2)
          rw [hreb, ihdelay]
          simp only [Bool.false_eq_true, if_false, List.length_cons]
          generalize (multiFetchLoop chainId api ((a :: tl).drop 30)
              (processBatchResponse chainId results (api ((a :: tl).take 30)))).2.1.length = L
            at hL ⊢
          omega
      · intro x hx
        rcases ihkeys x hx with h3 | ⟨b, hb, pr, hpr, hpr2⟩
        · rcases processBatchResponse_keys chainId results (api ((a :: tl).take 30)) x h3
            with h4 | ⟨pr, hpr, hpr2⟩
          · exact Or.inl h4
          · exact Or.inr ⟨(a :: tl).take 30, List.mem_cons_self _ _, pr, hpr, hpr2⟩
        · exact Or.inr ⟨b, List.mem_cons_of_mem _ hb, pr, hpr, hpr2⟩

/-! Claim theorems. -/

/-- C1: with positive reference and fetched prices the evaluator computes the
signed percent change `(currentPrice - referencePrice) / referencePrice * 100`
(positive exactly when the price rose, negative when it fell) and fires an
alert if and only if its absolute value reaches `dropThreshold`; in
particular, with threshold 5, reference 1.00 and fetched price 0.96 the
change is -4.0%, nothing fires, and the store is left unchanged. -/
theorem alert_fires_iff_abs_change_reaches_threshold (ref cur t : ℚ)
    (href : 0 < ref) (hcur : 0 < cur) :
    ((checkEntry ref cur t = .fire ((cur - ref) / ref * 100) ↔
        |(cur - ref) / ref * 100| ≥ t) ∧
     (checkEntry ref cur t = .noFire ((cur - ref) / ref * 100) ↔
        ¬ |(cur - ref) / ref * 100| ≥ t) ∧
     (ref < cur → 0 < (cur - ref) / ref * 100) ∧
     (cur < ref → (cur - ref) / ref * 100 < 0)) ∧
    checkEntry 1 (96/100) 5 = .noFire (-4) ∧
    checkPricesEntryStep [exEntry] exEntry (96/100) (.ok ()) = .ok ([exEntry], false, []) := by
  have hguard : ¬ (ref ≤ 0 ∨ cur ≤ 0) := by push_neg; exact ⟨href, hcur⟩
  refine ⟨⟨?_, ?_, ?_, ?_⟩, ?_, ?_⟩
  · unfold checkEntry
    rw [if_neg hguard]
    by_cases h : |(cur - ref) / ref * 100| ≥ t <;> simp [h]
  · unfold checkEntry
    rw [if_neg hguard]
    by_cases h : |(cur - ref) / ref * 100| ≥ t <;> simp [h]
  · intro hlt
    have h1 : 0 < (cur - ref) / ref := div_pos (by linarith) href
    linarith
  · intro hlt
    have h1 : (cur - ref) / ref < 0 := div_neg_of_neg_of_pos (by linarith) href
    linarith
  · with_unfolding_all decide
  · with_unfolding_all rfl

/-- Witness for C1 at a concrete input: reference 1, price 2, threshold 10
is a +100% move and fires. -/
theorem alert_fires_iff_abs_change_reaches_threshold_witness :
    checkEntry 1 2 10 = .fire ((2 - 1) / 1 * 100) :=
  ((alert_fires_iff_abs_change_reaches_threshold 1 2 10 (by norm_num) (by norm_num)).1.1).mpr
    (by norm_num)

/-- C2: whenever an entry fires, the store's reference price for that entry is
set to the triggering current price regardless of the notification outcome;
and the spec's worked sequence from reference 1.00 with threshold 5 over
fetched prices 0.94, 0.89, 0.92, 0.84 fires exactly three alerts, the
reference moving 0.94 → 0.89 → (0.89 at 0.92) → 0.84. -/
theorem fire_updates_reference (wl : List WatchlistEntry) (e : WatchlistEntry) (cur : ℚ)
    (h1 : 0 < e.lastAlertPrice) (h2 : 0 < cur)
    (h3 : |(cur - e.lastAlertPrice) / e.lastAlertPrice * 100| ≥ e.dropThreshold) :
    (∀ sendOutcome : Except String Unit, ∃ logs,
      checkPricesEntryStep wl e cur sendOutcome =
        .ok (updateLastAlertPrice wl e.tokenAddress e.chainId e.chatId cur, true, logs)) ∧
    (checkPricesSweep [exEntry] (constFetch "solana" "0xabc" (94/100)) =
      ([{ exEntry with lastAlertPrice := 94/100 }], 1)) ∧
    (checkPricesSweep [{ exEntry with lastAlertPrice := 94/100 }]
        (constFetch "solana" "0xabc" (89/100)) =
      ([{ exEntry with lastAlertPrice := 89/100 }], 1)) ∧
    (checkPricesSweep [{ exEntry with lastAlertPrice := 89/100 }]
        (constFetch "solana" "0xabc" (92/100)) =
      ([{ exEntry with lastAlertPrice := 89/100 }], 0)) ∧
    (checkPricesSweep [{ exEntry with lastAlertPrice := 89/100 }]
        (constFetch "solana" "0xabc" (84/100)) =
      ([{ exEntry with lastAlertPrice := 84/100 }], 1)) ∧
    (runPriceSequence [exEntry] "solana" "0xabc" [94/100, 89/100, 92/100, 84/100] =
      ([{ exEntry with lastAlertPrice := 84/100 }], 3)) := by
  have hfire : checkEntry e.lastAlertPrice cur e.dropThreshold =
      .fire ((cur - e.lastAlertPrice) / e.lastAlertPrice * 100) := by
    unfold checkEntry
    rw [if_neg (by push_neg; exact ⟨h1, h2⟩)]
    simp [h3]
  refine ⟨?_, ?_, ?_, ?_, ?_, ?_⟩
  · intro sendOutcome
    cases sendOutcome with
    | ok u =>
      exact ⟨[], by simp [checkPricesEntryStep, hfire, sendPriceAlert, Bind.bind, Except.bind]⟩
    | error m =>
      exact ⟨["Error sending alert: " ++ m],
        by simp [checkPricesEntryStep, hfire, sendPriceAlert, Bind.bind, Except.bind]⟩
  · with_unfolding_all decide
  · with_unfolding_all decide
  · with_unfolding_all decide
  · with_unfolding_all decide
  · with_unfolding_all decide

/-- Witness for C2 at a concrete input: the example entry fires at price 0.94
and the store is updated to reference 0.94, with a successful notification. -/
theorem fire_updates_reference_witness :
    ∃ logs, checkPricesEntryStep [exEntry] exEntry (94/100) (.ok ()) =
      .ok (updateLastAlertPrice [exEntry]
             exEntry.tokenAddress exEntry.chainId exEntry.chatId (94/100), true, logs) :=
  (fire_updates_reference [exEntry] exEntry (94/100)
      (by norm_num [exEntry]) (by norm_num)
      (by norm_num [exEntry])).1 (.ok ())

/-- C3: an entry whose stored reference price is non-positive, or a fetched
price that is non-positive, is skipped with no fire, no store mutation, no
notification and no error. -/
theorem nonpositive_guard_skips (wl : List WatchlistEntry) (e : WatchlistEntry) (cur : ℚ)
    (sendOutcome : Except String Unit) (h : e.lastAlertPrice ≤ 0 ∨ cur ≤ 0) :
    checkEntry e.lastAlertPrice cur e.dropThreshold = .skip ∧
    checkPricesEntryStep wl e cur sendOutcome = .ok (wl, false, []) := by
  have hskip : checkEntry e.lastAlertPrice cur e.dropThreshold = .skip := by
    unfold checkEntry; rw [if_pos h]
  exact ⟨hskip, by simp [checkPricesEntryStep, hskip]⟩

/-- Witness for C3 at a concrete input: reference price 0 is skipped. -/
theorem nonpositive_guard_skips_witness :
    checkEntry (0:ℚ) 2 5 = .skip ∧
    checkPricesEntryStep [] { exEntry with lastAlertPrice := 0 } 2 (.ok ()) =
      .ok ([], false, []) :=
  nonpositive_guard_skips [] { exEntry with lastAlertPrice := 0 } 2 (.ok ())
    (Or.inl (le_refl 0))

/-- C4: a notification-dispatch failure on a fired alert is caught and logged
inside the evaluator — the step still returns normally — and the
reference-price update to the current price is performed regardless of the
dispatch outcome. -/
theorem dispatch_failure_caught (wl : List WatchlistEntry) (e : WatchlistEntry) (cur : ℚ)
    (msg : String)
    (h1 : 0 < e.lastAlertPrice) (h2 : 0 < cur)
    (h3 : |(cur - e.lastAlertPrice) / e.lastAlertPrice * 100| ≥ e.dropThreshold) :
    checkPricesEntryStep wl e cur (.error msg) =
      .ok (updateLastAlertPrice wl e.tokenAddress e.chainId e.chatId cur, true,
           ["Error sending alert: " ++ msg]) ∧
    ∀ sendOutcome : Except String Unit, ∃ r,
      checkPricesEntryStep wl e cur sendOutcome = .ok r ∧
      r.1 = updateLastAlertPrice wl e.tokenAddress e.chainId e.chatId cur := by
  have hfire : checkEntry e.lastAlertPrice cur e.dropThreshold =
      .fire ((cur - e.lastAlertPrice) / e.lastAlertPrice * 100) := by
    unfold checkEntry
    rw [if_neg (by push_neg; exact ⟨h1, h2⟩)]
    simp [h3]
  constructor
  · simp [checkPricesEntryStep, hfire, sendPriceAlert, Bind.bind, Except.bind]
  · intro sendOutcome
    cases sendOutcome with
    | ok u =>
      exact ⟨(updateLastAlertPrice wl e.tokenAddress e.chainId e.chatId cur, true, []),
        by simp [checkPricesEntryStep, hfire, sendPriceAlert, Bind.bind, Except.bind], rfl⟩
    | error m =>
      exact ⟨(updateLastAlertPrice wl e.tokenAddress e.chainId e.chatId cur, true,
          ["Error sending alert: " ++ m]),
        by simp [checkPricesEntryStep, hfire, sendPriceAlert, Bind.bind, Except.bind], rfl⟩

/-- Witness for C4 at a concrete input: a failed send on the example entry's
-6% move is logged and the reference is still updated. -/
theorem dispatch_failure_caught_witness :
    checkPricesEntryStep [exEntry] exEntry (94/100) (.error "boom") =
      .ok (updateLastAlertPrice [exEntry]
             exEntry.tokenAddress exEntry.chainId exEntry.chatId (94/100), true,
           ["Error sending alert: " ++ "boom"]) :=
  (dispatch_failure_caught [exEntry] exEntry (94/100) "boom"
      (by norm_num [exEntry]) (by norm_num)
      (by norm_num [exEntry])).1

/-- C5: an add whose case-insensitive (address, chain, subscriber) key already
exists returns the duplicate signal `none` and leaves the watchlist unchanged,
and every store operation (add, remove, update reference price, update
threshold) preserves the invariant that at most one entry exists per key. -/
theorem store_ops_preserve_unique
    (wl : List WatchlistEntry) (p : AddParams) (now : String) (hu : UniqueKeys wl) :
    ((wl.any fun e =>
        lowerStr e.tokenAddress == lowerStr p.tokenAddress &&
        lowerStr e.chainId == lowerStr p.chainId &&
        e.chatId == p.chatId) = true → addToWatchlist wl p now = (none, wl)) ∧
    UniqueKeys (addToWatchlist wl p now).2 ∧
    (∀ addr chain chat, UniqueKeys (removeFromWatchlist wl addr chain chat).2) ∧
    (∀ addr chain chat q, UniqueKeys (updateLastAlertPrice wl addr chain chat q)) ∧
    (∀ addr chain chat t, UniqueKeys (updateThreshold wl addr chain chat t).2) := by
  refine ⟨?_, ?_, ?_, ?_, ?_⟩
  · intro h
    unfold addToWatchlist
    simp only [h, if_true]
  · by_cases h : (wl.any fun e =>
        lowerStr e.tokenAddress == lowerStr p.tokenAddress &&
        lowerStr e.chainId == lowerStr p.chainId &&
        e.chatId == p.chatId) = true
    · unfold addToWatchlist
      simp only [h, if_true]
      exact hu
    · unfold addToWatchlist
      simp only [h]
      rw [if_neg (by simp at h; simp [h])]
      simp only [UniqueKeys, List.map_append, List.map_cons, List.map_nil]
      rw [List.nodup_append]
      refine ⟨hu, List.nodup_singleton _, ?_⟩
      intro k hk1 hk2
      simp only [List.mem_singleton] at hk2
      simp only [List.mem_map] at hk1
      obtain ⟨e, he, hke⟩ := hk1
      rw [List.any_eq_true] at h
      push_neg at h
      have hm := h e he
      have hm2 : (lowerStr e.tokenAddress == lowerStr p.tokenAddress &&
          (lowerStr e.chainId == lowerStr p.chainId && e.chatId == p.chatId)) = false := by
        rw [← Bool.and_assoc]
        exact Bool.eq_false_iff.mpr hm
      apply entryMatches_false_keys_ne e p hm2
      rw [hke, hk2]
      simp [keysOf]
  · intro addr chain chat
    unfold removeFromWatchlist
    by_cases h : (wl.filter fun e => !(entryMatches e addr chain chat)).length < wl.length
    · simp only [h, if_true]
      exact List.Nodup.sublist (List.Sublist.map keysOf (List.filter_sublist wl)) hu
    · simp only [h, if_false]
      exact hu
  · intro addr chain chat q
    unfold UniqueKeys
    rw [updateLastAlertPrice_keys]
    exact hu
  · intro addr chain chat t
    unfold UniqueKeys
    rw [updateThreshold_keys]
    exact hu

/-- Witness for C5 at a concrete input: re-adding the example entry's token
with different letter case is rejected and leaves the store unchanged. -/
theorem store_ops_preserve_unique_witness :
    addToWatchlist [exEntry]
      { tokenAddress := "0xABC", chainId := "SOLANA", name := "n", symbol := "s"
        currentPrice := 2, dropThreshold := 5, chatId := "chat1" } "t9" =
      (none, [exEntry]) :=
  (store_ops_preserve_unique [exEntry]
      { tokenAddress := "0xABC", chainId := "SOLANA", name := "n", symbol := "s"
        currentPrice := 2, dropThreshold := 5, chatId := "chat1" } "t9"
      (by unfold UniqueKeys; with_unfolding_all decide)).1
    (by with_unfolding_all decide)

/-- C6 counterexample: the add path CAN create an entry with a non-positive
price — a fetched pair whose `priceUsd` does not parse is normalized to price
0 by `parseFloat(...) || 0`, `processAdd` passes it through, and
`addToWatchlist` stores it without a positivity check. -/
theorem zero_price_entry_created :
    ∃ e ∈ (processAdd [] "chat1" "solana" "0xdef" 5
        (getTokenData "solana" "0xdef" (some [badPair])) "t0").1,
      e.lastAlertPrice ≤ 0 ∧ e.initialPrice ≤ 0 := by
  with_unfolding_all decide

/-- C6 amended: the add path stores the fetched current price verbatim as both
reference and initial price (no positivity check), and the evaluator skips any
entry whose reference price — or whose fetched price — is non-positive, so
such entries never fire and never cause a division by zero. -/
theorem add_stores_fetched_price_and_guard (wl : List WatchlistEntry)
    (p : AddParams) (now : String) :
    (∀ entry wl2, addToWatchlist wl p now = (some entry, wl2) →
      entry.lastAlertPrice = p.currentPrice ∧ entry.initialPrice = p.currentPrice) ∧
    (∀ (e : WatchlistEntry) (cur : ℚ), e.lastAlertPrice ≤ 0 ∨ cur ≤ 0 →
      checkEntry e.lastAlertPrice cur e.dropThreshold = .skip) := by
  constructor
  · intro entry wl2 h
    unfold addToWatchlist at h
    by_cases hex : (wl.any fun e =>
        lowerStr e.tokenAddress == lowerStr p.tokenAddress &&
        lowerStr e.chainId == lowerStr p.chainId &&
        e.chatId == p.chatId) = true
    · simp [hex] at h
    · simp only [hex] at h
      rw [if_neg (by simp at hex; simp [hex])] at h
      have h2 := ((Prod.mk.injEq _ _ _ _).mp h).1
      simp only [Option.some.injEq] at h2
      rw [← h2]
      exact ⟨rfl, rfl⟩
  · intro e cur h
    unfold checkEntry
    rw [if_pos h]

/-- Witness for C6's amended theorem at a concrete input: adding with fetched
price 0 stores reference and initial price 0. -/
theorem add_stores_fetched_price_and_guard_witness :
    ∀ entry wl2,
      addToWatchlist []
        { tokenAddress := "0xdef", chainId := "solana", name := "Bad", symbol := "BAD"
          currentPrice := 0, dropThreshold := 5, chatId := "chat1" } "t0" =
        (some entry, wl2) →
      entry.lastAlertPrice = (0:ℚ) ∧ entry.initialPrice = (0:ℚ) :=
  (add_stores_fetched_price_and_guard []
      { tokenAddress := "0xdef", chainId := "solana", name := "Bad", symbol := "BAD"
        currentPrice := 0, dropThreshold := 5, chatId := "chat1" } "t0").1

/-- C7 counterexample: stopping right after starting does NOT cancel the
pending warm-up tick — `startMonitor` discards the `setTimeout` handle, so
after `stopMonitor` the warm-up timer (handle 0) is still live and its sweep
will still begin; the claim that no pending tick survives a stop is false. -/
theorem warmup_tick_survives_stop :
    (stopMonitor (startMonitor initMonitor)).timers.timeouts = [0] ∧
    (stopMonitor (startMonitor initMonitor)).timers.intervals = [] ∧
    ¬ ((stopMonitor (startMonitor initMonitor)).timers.timeouts = [] ∧
       (stopMonitor (startMonitor initMonitor)).timers.intervals = []) := by
  decide

/-- C7 amended: `stopMonitor` cancels the steady-interval schedule — the
stored interval handle is cleared and that timer never fires again — but the
pending warm-up `setTimeout` is not cancelled (its handle was discarded by
`startMonitor`) and may still fire once after stop. -/
theorem stop_cancels_interval_ticks (s : MonitorState) (h : Nat)
    (hs : s.monitorInterval = some h) :
    (stopMonitor s).monitorInterval = none ∧
    (stopMonitor s).timers.intervals = s.timers.intervals.filter (· != h) ∧
    h ∉ (stopMonitor s).timers.intervals ∧
    (stopMonitor s).timers.timeouts = s.timers.timeouts.filter (· != h) := by
  unfold stopMonitor
  rw [hs]
  refine ⟨rfl, rfl, ?_, rfl⟩
  intro hmem
  have h2 := List.of_mem_filter hmem
  simp at h2

/-- Witness for C7's amended theorem at a concrete input: stopping after a
fresh start clears the stored handle and its interval. -/
theorem stop_cancels_interval_ticks_witness :
    (stopMonitor (startMonitor initMonitor)).monitorInterval = none ∧
    1 ∉ (stopMonitor (startMonitor initMonitor)).timers.intervals :=
  ⟨(stop_cancels_interval_ticks (startMonitor initMonitor) 1 (by decide)).1,
   (stop_cancels_interval_ticks (startMonitor initMonitor) 1 (by decide)).2.2.1⟩

/-- C8: the batched fetch splits the address list into successive calls of at
most 30 addresses whose concatenation is exactly the input, inserts one pacing
delay between successive calls, and — when the API only returns pairs for
addresses of the batch it was asked — every key of the result mapping is the
lower-casing of an input address (addresses without data are simply absent);
concretely, 31 addresses are split into calls of 30 and 1 with one delay. -/
theorem batch_fetch_contract (chainId : String) (tokenAddresses : List String)
    (api : List String → Option (List RawPair)) :
    (∀ b ∈ (getMultipleTokensData chainId tokenAddresses api).2.1, b.length ≤ 30) ∧
    ((getMultipleTokensData chainId tokenAddresses api).2.1.flatten = tokenAddresses) ∧
    ((getMultipleTokensData chainId tokenAddresses api).2.2 =
      (getMultipleTokensData chainId tokenAddresses api).2.1.length - 1) ∧
    ((∀ b ∈ (getMultipleTokensData chainId tokenAddresses api).2.1,
        ∀ pr ∈ (api b).getD [], ∀ a2 ∈ lowerAddrOf pr, ∃ x ∈ b, a2 = lowerStr x) →
      ∀ k ∈ (getMultipleTokensData chainId tokenAddresses api).1.map Prod.fst,
        ∃ x ∈ tokenAddresses, k = lowerStr x) ∧
    ((getMultipleTokensData "solana" addrs31 fun _ => none).2.1.map List.length = [30, 1]) ∧
    ((getMultipleTokensData "solana" addrs31 fun _ => none).2.2 = 1) := by
  obtain ⟨hflat, hlen, hdelay, hkeys⟩ :=
    multiFetchLoop_spec chainId api tokenAddresses.length tokenAddresses [] le_rfl
  refine ⟨fun b hb => (hlen b hb).1, hflat, hdelay, ?_, ?_, ?_⟩
  · intro hapi k hk
    rcases hkeys k hk with h0 | ⟨b, hb, pr, hpr, hpr2⟩
    · simp at h0
    · obtain ⟨x, hx, hx2⟩ := hapi b hb pr hpr k hpr2
      refine ⟨x, ?_, hx2⟩
      rw [← hflat]
      exact List.mem_flatten.mpr ⟨b, hb, hx⟩
  · with_unfolding_all decide
  · with_unfolding_all decide

/-- Witness for C8 at a concrete input: a two-address fetch whose response
pair carries upper-case `A1` maps the result back to the lower-cased input. -/
theorem batch_fetch_contract_witness :
    ∀ k ∈ (getMultipleTokensData "solana" ["A1", "B2"] exApi).1.map Prod.fst,
      ∃ x ∈ ["A1", "B2"], k = lowerStr x :=
  (batch_fetch_contract "solana" ["A1", "B2"] exApi).2.2.2.1
    (by with_unfolding_all decide)

/-- C9: `formatPrice` and `formatMarketCap` are functions of their numeric
input (equal inputs give equal strings); `formatPrice` follows the documented
tiers — scientific notation below 1e-8, trailing-zero-stripped decimals below
0.0001 and below 1, fixed 4 decimals up to 1000, thousands-grouped 2 decimals
from 1000 on — and `formatMarketCap` uses K/M/B/T at powers of 1000 with
literal "N/A" at zero; the boundary inputs 0, 1000 and 1e6 land on the
documented tier. -/
theorem formatting_tiers :
    (∀ p q : ℚ, p = q → formatPrice p = formatPrice q ∧ formatMarketCap p = formatMarketCap q) ∧
    (∀ p : ℚ, 0 < p → p < 1/100000000 → formatPrice p = "$" ++ qToExponential p 4) ∧
    (∀ p : ℚ, 1/100000000 ≤ p → p < 1/10000 →
      formatPrice p = "$" ++ stripTrailingZeros (qToFixed p 10)) ∧
    (∀ p : ℚ, 1/10000 ≤ p → p < 1 →
      formatPrice p = "$" ++ stripTrailingZeros (qToFixed p 6)) ∧
    (∀ p : ℚ, 1 ≤ p → p < 1000 → formatPrice p = "$" ++ qToFixed p 4) ∧
    (∀ p : ℚ, 1000 ≤ p → formatPrice p = "$" ++ qToLocaleFixed2 p) ∧
    (∀ m : ℚ, 1000 ≤ m → m < 1000000 →
      formatMarketCap m = "$" ++ qToFixed (m / 1000) 2 ++ "K") ∧
    (∀ m : ℚ, 1000000 ≤ m → m < 1000000000 →
      formatMarketCap m = "$" ++ qToFixed (m / 1000000) 2 ++ "M") ∧
    formatPrice 0 = "$0.00" ∧
    formatPrice (1/1000000000) = "$1.0000e-9" ∧
    formatPrice (5/100000) = "$0.00005" ∧
    formatPrice (1/2) = "$0.5" ∧
    formatPrice (5/4) = "$1.2500" ∧
    formatPrice 999 = "$999.0000" ∧
    formatPrice 1000 = "$1,000.00" ∧
    formatPrice (1234567/1000) = "$1,234.57" ∧
    formatMarketCap 0 = "N/A" ∧
    formatMarketCap 999 = "$999.00" ∧
    formatMarketCap 1000 = "$1.00K" ∧
    formatMarketCap 1000000 = "$1.00M" ∧
    formatMarketCap (5/2 * 1000000000) = "$2.50B" ∧
    formatMarketCap 1000000000000 = "$1.00T" := by
  refine ⟨?_, ?_, ?_, ?_, ?_, ?_, ?_, ?_, ?_, ?_, ?_, ?_, ?_, ?_, ?_, ?_, ?_, ?_, ?_, ?_, ?_, ?_⟩
  · intro p q h; rw [h]; exact ⟨rfl, rfl⟩
  · intro p h1 h2
    unfold formatPrice
    rw [if_neg (by intro h0; rw [h0] at h1; norm_num at h1), if_pos h2]
  · intro p h1 h2
    unfold formatPrice
    rw [if_neg (by intro h0; rw [h0] at h1; norm_num at h1),
        if_neg (by linarith), if_pos h2]
  · intro p h1 h2
    unfold formatPrice
    rw [if_neg (by intro h0; rw [h0] at h1; norm_num at h1),
        if_neg (by linarith), if_neg (by linarith), if_pos h2]
  · intro p h1 h2
    unfold formatPrice
    rw [if_neg (by intro h0; rw [h0] at h1; norm_num at h1),
        if_neg (by linarith), if_neg (by linarith), if_neg (by linarith), if_pos h2]
  · intro p h1
    unfold formatPrice
    rw [if_neg (by intro h0; rw [h0] at h1; norm_num at h1),
        if_neg (by linarith), if_neg (by linarith), if_neg (by linarith),
        if_neg (by linarith)]
  · intro m h1 h2
    unfold formatMarketCap
    rw [if_neg (by intro h0; rw [h0] at h1; norm_num at h1),
        if_neg (by linarith), if_neg (by linarith), if_neg (by linarith), if_pos h1]
  · intro m h1 h2
    unfold formatMarketCap
    rw [if_neg (by intro h0; rw [h0] at h1; norm_num at h1),
        if_neg (by linarith), if_neg (by linarith), if_pos h1]
  all_goals with_unfolding_all decide

/-- Witness for C9 at a concrete input: 1e-9 lands on the scientific tier. -/
theorem formatting_tiers_witness :
    formatPrice (1/1000000000) = "$" ++ qToExponential (1/1000000000) 4 :=
  formatting_tiers.2.1 (1/1000000000) (by norm_num) (by norm_num)

/-- C10: a reference-price update touches only the first entry matching its
case-insensitive key — every other entry keeps all its fields, and a key
matching no entry leaves the store unchanged; concretely, with two
subscribers tracking the same (address, chain), firing for `chat1` leaves
`chat2`'s entry untouched. -/
theorem update_reference_frame (wl : List WatchlistEntry) (addr chain chat : String) (p : ℚ) :
    ((∀ e ∈ wl, entryMatches e addr chain chat = false) →
      updateLastAlertPrice wl addr chain chat p = wl) ∧
    (updateLastAlertPrice wl addr chain chat p = wl ∨
      ∃ l1 e l2, wl = l1 ++ e :: l2 ∧
        (∀ x ∈ l1, entryMatches x addr chain chat = false) ∧
        entryMatches e addr chain chat = true ∧
        updateLastAlertPrice wl addr chain chat p =
          l1 ++ { e with lastAlertPrice := p } :: l2) ∧
    (updateLastAlertPrice [exEntry, { exEntry with chatId := "chat2" }]
        "0xabc" "solana" "chat1" (9/10) =
      [{ exEntry with lastAlertPrice := 9/10 }, { exEntry with chatId := "chat2" }]) ∧
    (updateLastAlertPrice [exEntry, { exEntry with chatId := "chat2" }]
        "0xdead" "solana" "chat1" (9/10) =
      [exEntry, { exEntry with chatId := "chat2" }]) := by
  refine ⟨?_, ?_, ?_, ?_⟩
  · intro h
    induction wl with
    | nil => simp [updateLastAlertPrice]
    | cons e rest ih =>
      have he := h e (List.mem_cons_self e rest)
      rw [updateLastAlertPrice, if_neg (by simp [he])]
      rw [ih fun x hx => h x (List.mem_cons_of_mem e hx)]
  · induction wl with
    | nil => left; simp [updateLastAlertPrice]
    | cons e rest ih =>
      by_cases h : entryMatches e addr chain chat
      · right
        exact ⟨[], e, rest, by simp, by simp, h, by simp [updateLastAlertPrice, h]⟩
      · rcases ih with hsame | ⟨l1, x, l2, hsplit, hl1, hx, hupd⟩
        · left; simp [updateLastAlertPrice, h, hsame]
        · right
          refine ⟨e :: l1, x, l2, by simp [hsplit], ?_, hx, ?_⟩
          · intro y hy
            rcases List.mem_cons.mp hy with rfl | hy2
            · exact Bool.eq_false_iff.mpr h
            · exact hl1 y hy2
          · simp [updateLastAlertPrice, h, hupd]
  · with_unfolding_all decide
  · with_unfolding_all decide

/-- Witness for C10 at a concrete input: a key matching no entry leaves the
store unchanged. -/
theorem update_reference_frame_witness :
    updateLastAlertPrice [exEntry] "0xzz" "solana" "chat1" 2 = [exEntry] :=
  (update_reference_frame [exEntry] "0xzz" "solana" "chat1" 2).1
    (by with_unfolding_all decide)

end DexOwl
